import Mathlib

/-!
Verification of the stroke-to-text recognition pipeline of the ekoAi
repository (src/services/aiService.ts: class HandwritingService, and
src/hooks/useHandwritingRecognition.ts / the hook variant that uses the
service).  The TypeScript code is shallowly embedded below: canvas
coordinates (JS doubles holding pixel values) become integers, strings
stay strings, promise-returning adapter calls become values of
Except String String (error = the promise rejected), and the React hook
becomes an explicit state machine over its event alphabet.
-/

/-- Embeds the Point interface of aiService.ts: canvas-space coordinates.
The source stores JS numbers; pixel coordinates are embedded as integers,
which is exact for every concrete scenario of the specification. -/
structure Point where
  x : Int
  y : Int
deriving DecidableEq, Repr

/-- Embeds the Stroke interface of aiService.ts. -/
structure Stroke where
  points : List Point
  color : String
  width : Int
  timestamp : Int
deriving DecidableEq, Repr

/-- Embeds the eraser-stroke filter predicate used at every filtering site
of the source: strokes.filter(s => s.color !== 'transparent'). -/
def isDrawStroke (s : Stroke) : Bool :=
  s.color != "transparent"

/-- Embeds HandwritingService.getStrokeBoundingBox (min/max over the
points of one stroke).  The source spreads the point list into Math.min /
Math.max, which yields infinities for an empty list; the embedding returns
none for an empty list, and bboxOverlap below treats none as
never-overlapping, exactly as the infinite JS bounds behave under the
source's comparison. -/
structure BBox where
  minX : Int
  minY : Int
  maxX : Int
  maxY : Int
deriving DecidableEq, Repr

def getStrokeBoundingBox : List Point → Option BBox
  | [] => none
  | p :: ps =>
      some (ps.foldl
        (fun b q =>
          { minX := min b.minX q.x, minY := min b.minY q.y
            maxX := max b.maxX q.x, maxY := max b.maxY q.y })
        { minX := p.x, minY := p.y, maxX := p.x, maxY := p.y })

/-- Embeds HandwritingService.getDetailedStrokeDirection.  The source
computes angle = atan2(dy, dx) * 180 / pi for the vector from the first to
the last point and buckets it into eight 45-degree octants with boundaries
at odd multiples of 22.5 degrees.  Over integer coordinates those boundary
rays (slope tan 22.5 = sqrt 2 - 1 and tan 67.5 = sqrt 2 + 1, both
irrational) contain no nonzero integer vector, so octant membership is
decided exactly by the algebraic equivalences (with a = |dx|, b = |dy|):
  b < a * tan 22.5  iff  a + b < a * sqrt 2  iff  (a+b)^2 < 2a^2  iff  b*(b+2a) < a^2
  b > a * tan 67.5  iff  b - a > a * sqrt 2  iff  (b-a)^2 > 2a^2  iff  a*(a+2b) < b^2.
The zero vector (coincident endpoints) has atan2(0,0) = 0 in JS, which
falls in the right octant [-22.5, 22.5). -/
def getDetailedStrokeDirection (points : List Point) : String :=
  if points.length < 2 then "point"
  else
    let start := points.headD { x := 0, y := 0 }
    let stop := points.getLastD { x := 0, y := 0 }
    let dx := stop.x - start.x
    let dy := stop.y - start.y
    let a := dx.natAbs
    let b := dy.natAbs
    if dx = 0 ∧ dy = 0 then "right"
    else if b * (b + 2 * a) < a * a then
      (if dx > 0 then "right" else "left")
    else if a * (a + 2 * b) < b * b then
      (if dy > 0 then "down" else "up")
    else if dy > 0 then
      (if dx > 0 then "down-right" else "down-left")
    else
      (if dx > 0 then "up-right" else "up-left")

/-- Embeds HandwritingService.isClosedShape: a stroke with at least 10
points is closed when its endpoints are less than 20px apart.  The
source's sqrt(dxs+dy2) < 20 is embedded as the exact equivalent
dx^2 + dy^2 < 400. -/
def isClosedShape (points : List Point) : Bool :=
  if points.length < 10 then false
  else
    let start := points.headD { x := 0, y := 0 }
    let stop := points.getLastD { x := 0, y := 0 }
    let dx := stop.x - start.x
    let dy := stop.y - start.y
    dx * dx + dy * dy < 400

/-- Embeds HandwritingService.strokesIntersect: a conservative bounding-box
overlap test. -/
def bboxOverlap : Option BBox → Option BBox → Bool
  | some b1, some b2 =>
      !(b1.maxX < b2.minX || b2.maxX < b1.minX ||
        b1.maxY < b2.minY || b2.maxY < b1.minY)
  | _, _ => false

def strokesIntersect (s1 s2 : Stroke) : Bool :=
  bboxOverlap (getStrokeBoundingBox s1.points) (getStrokeBoundingBox s2.points)

/-- Embeds HandwritingService.countStrokeIntersections: count over
unordered pairs i < j. -/
def countStrokeIntersections : List Stroke → Nat
  | [] => 0
  | s :: rest =>
      (rest.filter (fun t => strokesIntersect s t)).length +
        countStrokeIntersections rest

/-- Embeds the analysis record built by
HandwritingService.analyzeStrokesForCharacters.  The source also collects
strokeLengths (a float polyline length per stroke); that field is consumed
nowhere -- strokesToCharacters reads only strokeCount, closedShapes,
strokeDirections and intersections -- and, being a sum of square roots, it
is omitted from the embedding. -/
structure Analysis where
  strokeCount : Nat
  totalPoints : Nat
  boundingBoxes : List (Option BBox)
  strokeDirections : List String
  closedShapes : Nat
  intersections : Nat
deriving Repr

def analyzeStrokesForCharacters (strokes : List Stroke) : Analysis :=
  { strokeCount := strokes.length
    totalPoints := (strokes.map (fun s => s.points.length)).sum
    boundingBoxes := strokes.map (fun s => getStrokeBoundingBox s.points)
    strokeDirections := strokes.map (fun s => getDetailedStrokeDirection s.points)
    closedShapes := (strokes.filter (fun s => isClosedShape s.points)).length
    intersections := countStrokeIntersections strokes }

/-- Embeds the commonWords table of HandwritingService.strokesToCharacters
(13 entries). -/
def commonWords : List String :=
  ["hello", "world", "test", "writing", "text", "good", "work",
   "nice", "great", "awesome", "perfect", "amazing", "wonderful"]

/-- Embeds the sentences table of HandwritingService.strokesToCharacters
(7 entries). -/
def sentences : List String :=
  ["Hello world",
   "This is a test",
   "Handwriting recognition",
   "Great work",
   "Nice writing",
   "Keep practicing",
   "Excellent progress"]

/-- Embeds HandwritingService.strokesToCharacters.  The second parameter
mirrors the source's strokes argument, which its body never reads. -/
def strokesToCharacters (analysis : Analysis) (_strokes : List Stroke) : String :=
  let strokeCount := analysis.strokeCount
  if strokeCount = 1 then
    let direction := analysis.strokeDirections.headD ""
    if direction = "down" ∨ direction = "up" then "I"
    else if direction = "right" ∨ direction = "left" then "-"
    else if analysis.closedShapes > 0 then "O"
    else "l"
  else if strokeCount = 2 then
    if analysis.intersections > 0 then "X"
    else if analysis.strokeDirections.contains "down" ∧
            analysis.strokeDirections.contains "right" then "L"
    else "H"
  else if strokeCount = 3 then
    if analysis.closedShapes > 0 then "P"
    else if analysis.intersections > 1 then "A"
    else "F"
  else if strokeCount ≤ 8 then
    (commonWords.get? (strokeCount % commonWords.length)).getD ""
  else
    (sentences.get? (strokeCount % sentences.length)).getD ""

/-- Embeds HandwritingService.recognizeWithPatterns (method 4, the offline
heuristic synthesizer). -/
def recognizeWithPatterns (strokes : List Stroke) : String :=
  if strokes.length = 0 then ""
  else
    let drawStrokes := strokes.filter isDrawStroke
    if drawStrokes.length = 0 then ""
    else strokesToCharacters (analyzeStrokesForCharacters drawStrokes) drawStrokes

/-- Embeds JS String.prototype.trim as used on adapter results (strip
whitespace from both ends).  Lean's built-in String.trim does not reduce
inside the kernel, so the embedding uses an equivalent list-level
definition. -/
def isJsWhitespace (c : Char) : Bool :=
  c = ' ' || c = '\t' || c = '\n' || c = '\r'

def jsTrim (s : String) : String :=
  String.mk (((s.data.dropWhile isJsWhitespace).reverse.dropWhile isJsWhitespace).reverse)

/-- Embeds the enablement check applied to the Google-keyed adapters, both
in the methods list of recognizeHandwriting
(!!AI_CONFIG.google.apiKey && apiKey !== 'your_google_ai_api_key_here')
and, negated, as the throw guard inside recognizeWithGoogleVision and
recognizeWithAI (!apiKey || apiKey === 'your_google_ai_api_key_here').
none embeds an undefined environment variable; the empty string is falsy
in JS, so both the undefined and the empty key count as not configured. -/
def googleKeyConfigured : Option String → Bool
  | none => false
  | some k => !(k == "") && !(k == "your_google_ai_api_key_here")

/-- Embeds the environment a recognition call runs against: the configured
Google API key, the optional canvas (some imageData embeds a canvas whose
toDataURL yields imageData), and the two network backends.  A backend is a
function from the request image data to the outcome the adapter's
fetch-and-parse sequence would produce: Except.error embeds a rejected
fetch or a non-ok HTTP status, Except.ok t embeds a parsed response whose
extracted text field is t (with the source's fallback to the empty string
when the field is missing). -/
structure Env where
  googleApiKey : Option String
  canvas : Option String
  googleVisionNet : String → Except String String
  geminiNet : String → Except String String

/-- Embeds HandwritingService.recognizeWithGoogleVision (method 1).  The
returned Bool records whether the adapter issued network I/O (reached its
fetch call).  The source checks the key and throws before fetching;
otherwise it propagates fetch/status errors and returns the extracted
text, trimmed. -/
def recognizeWithGoogleVision (key : Option String) (net : Except String String) :
    Except String String × Bool :=
  if !(googleKeyConfigured key) then
    (.error "Google Vision API key not configured", false)
  else
    match net with
    | .error e => (.error e, true)
    | .ok text => (.ok (jsTrim text), true)

/-- Embeds HandwritingService.recognizeWithAI (method 2, Gemini Vision),
with the same key guard, error propagation and trimming as method 1. -/
def recognizeWithAI (key : Option String) (net : Except String String) :
    Except String String × Bool :=
  if !(googleKeyConfigured key) then
    (.error "Google AI API key not configured", false)
  else
    match net with
    | .error e => (.error e, true)
    | .ok text => (.ok (jsTrim text), true)

/-- Embeds HandwritingService.tryGoogleVision: throws when no canvas is
available, else rasterizes the canvas and delegates to method 1. -/
def tryGoogleVision (env : Env) : Except String String × Bool :=
  match env.canvas with
  | none => (.error "Canvas not available for Google Vision", false)
  | some imageData =>
      recognizeWithGoogleVision env.googleApiKey (env.googleVisionNet imageData)

/-- Embeds HandwritingService.tryAIVision: throws when no canvas is
available, else rasterizes the canvas and delegates to method 2. -/
def tryAIVision (env : Env) : Except String String × Bool :=
  match env.canvas with
  | none => (.error "Canvas not available for AI Vision", false)
  | some imageData =>
      recognizeWithAI env.googleApiKey (env.geminiNet imageData)

/-- Embeds one entry of the methods list of
HandwritingService.recognizeHandwriting: an enabled flag and the outcome
the entry's method() promise would produce when awaited. -/
structure Method where
  enabled : Bool
  run : Except String String
deriving Repr

/-- Embeds the message returned when every cascade stage fails. -/
def fallbackMessage : String :=
  "Recognition in progress... Please ensure clear handwriting for better results."

/-- Embeds the for-loop of recognizeHandwriting over the methods list:
skip a disabled method; otherwise await its result (an error is caught and
the loop continues); return the first result non-empty after trimming;
return the fallback message when the list is exhausted.  The second
component instruments the loop with the indices (offset by k) of the
methods actually invoked, in order. -/
def runCascadeAux : List Method → Nat → String × List Nat
  | [], _ => (fallbackMessage, [])
  | m :: rest, k =>
    if m.enabled then
      match m.run with
      | .ok s =>
          if (jsTrim s).length > 0 then (s, [k])
          else
            let r := runCascadeAux rest (k + 1)
            (r.1, k :: r.2)
      | .error _ =>
          let r := runCascadeAux rest (k + 1)
          (r.1, k :: r.2)
    else runCascadeAux rest (k + 1)

def runCascade (ms : List Method) : String × List Nat :=
  runCascadeAux ms 0

/-- Embeds the methods list built by recognizeHandwriting: index 0 is the
Google Vision API adapter, index 1 the Gemini Vision AI adapter (both
gated on the same Google key), index 2 the always-enabled pattern
recognition stage. -/
def handwritingMethods (env : Env) (drawStrokes : List Stroke) : List Method :=
  [ { enabled := googleKeyConfigured env.googleApiKey, run := (tryGoogleVision env).1 },
    { enabled := googleKeyConfigured env.googleApiKey, run := (tryAIVision env).1 },
    { enabled := true, run := .ok (recognizeWithPatterns drawStrokes) } ]

/-- Embeds HandwritingService.recognizeHandwriting: the empty-input guard,
the eraser filter guard, then the cascade.  The second component is the
instrumented list of invoked method indices (empty when a guard returns
early). -/
def recognizeHandwriting (env : Env) (strokes : List Stroke) : String × List Nat :=
  if strokes.length = 0 then ("", [])
  else
    let drawStrokes := strokes.filter isDrawStroke
    if drawStrokes.length = 0 then ("", [])
    else runCascade (handwritingMethods env drawStrokes)

/-- Embeds the exception-level semantics of the same loop: each iteration
awaits the method inside try/catch, so a method error turns into a
continue and is never re-raised.  Except.error would embed an uncaught
exception escaping recognizeHandwriting; the totality theorem shows it is
never produced. -/
def runCascadeE : List Method → Except String String
  | [] => .ok fallbackMessage
  | m :: rest =>
    if m.enabled then
      match m.run with
      | .ok s => if (jsTrim s).length > 0 then .ok s else runCascadeE rest
      | .error _ => runCascadeE rest
    else runCascadeE rest

/-- Embeds recognizeHandwriting at the exception level (see runCascadeE). -/
def recognizeHandwritingE (env : Env) (strokes : List Stroke) :
    Except String String :=
  if strokes.length = 0 then .ok ""
  else
    let drawStrokes := strokes.filter isDrawStroke
    if drawStrokes.length = 0 then .ok ""
    else runCascadeE (handwritingMethods env drawStrokes)

/-- Specification helper (not a source translation): the acceptance test
the loop applies to one methods-list entry -- enabled, resolved, and
non-empty after trimming -- returning the accepted string. -/
def accepts (m : Method) : Option String :=
  if m.enabled then
    match m.run with
    | .ok s => if (jsTrim s).length > 0 then some s else none
    | .error _ => none
  else none

/-- Embeds processStrokes of the hook that delegates to HandwritingService
(src/hooks variant importing handwritingService): empty guard, eraser
filter, then recognizeHandwriting on the filtered strokes.  The service
call cannot reject (totality theorem below), so the catch branch that
would fall back to generateFallbackText is dead and the result is the
service's string. -/
def processStrokes (env : Env) (strokes : List Stroke) : String :=
  if strokes.length = 0 then ""
  else
    let drawStrokes := strokes.filter isDrawStroke
    if drawStrokes.length = 0 then ""
    else (recognizeHandwriting env drawStrokes).1

/-- Embeds the mutable state of useHandwritingRecognition: the two React
state cells, the lastStrokeCount ref, the armed-but-not-yet-fired debounce
timer (carrying the strokes argument its callback captured), and the
cascades whose timer already fired and whose awaited promise has not yet
resolved (oldest first). -/
structure HookState where
  recognizedText : String
  isRecognizing : Bool
  lastStrokeCount : Nat
  pendingTimer : Option (List Stroke)
  inFlight : List (List Stroke)
deriving DecidableEq, Repr

/-- Events of the hook: a startRecognition call, the debounce timer
firing, the oldest in-flight cascade's promise resolving, and a
clearRecognition call. -/
inductive HookEvent where
  | startRecognition (strokes : List Stroke)
  | timerFire
  | resolve
  | clearRecognition
deriving DecidableEq, Repr

/-- Embeds one step of the hook.  startRecognition records the stroke
count, sets isRecognizing, clears any previous timeout and arms a new one
capturing its strokes argument.  When the timer fires, its callback starts
awaiting processStrokes, so the captured strokes move to the in-flight
list.  When an in-flight cascade resolves, its callback runs
setRecognizedText(newText) and clears isRecognizing.  clearRecognition
empties recognizedText, resets lastStrokeCount and cancels the pending
timeout via clearTimeout -- which has no effect on a callback that has
already started running, so the in-flight list is untouched. -/
def hookStep (env : Env) (st : HookState) : HookEvent → HookState
  | .startRecognition strokes =>
      { st with
        lastStrokeCount := strokes.length
        isRecognizing := true
        pendingTimer := some strokes }
  | .timerFire =>
      match st.pendingTimer with
      | none => st
      | some strokes =>
          { st with pendingTimer := none, inFlight := st.inFlight ++ [strokes] }
  | .resolve =>
      match st.inFlight with
      | [] => st
      | strokes :: rest =>
          { st with
            recognizedText := processStrokes env strokes
            isRecognizing := false
            inFlight := rest }
  | .clearRecognition =>
      { st with recognizedText := "", lastStrokeCount := 0, pendingTimer := none }

def hookRun (env : Env) (st : HookState) (evs : List HookEvent) : HookState :=
  evs.foldl (hookStep env) st

/-- Initial state of the hook: both useState cells at their initial
values, refs at zero, nothing armed or in flight. -/
def hookInit : HookState :=
  { recognizedText := ""
    isRecognizing := false
    lastStrokeCount := 0
    pendingTimer := none
    inFlight := [] }

/-- Concrete environment with no Google key configured and no canvas; the
network functions are irrelevant and always reject. -/
def envNoNet : Env :=
  { googleApiKey := none
    canvas := none
    googleVisionNet := fun _ => .error "network unavailable"
    geminiNet := fun _ => .error "network unavailable" }

/-- Concrete two-point ink stroke pointing straight down (atan2 angle 90
degrees, the down octant). -/
def vertStroke : Stroke :=
  { points := [{ x := 0, y := 0 }, { x := 0, y := 10 }]
    color := "#000000", width := 2, timestamp := 0 }

/-- Concrete two-point ink stroke pointing right (atan2 angle 0). -/
def horizStroke : Stroke :=
  { points := [{ x := 0, y := 0 }, { x := 10, y := 0 }]
    color := "#000000", width := 2, timestamp := 0 }

/-- Concrete closed ink stroke (10 points, endpoints 9px apart) whose
first-to-last vector points straight down. -/
def closedVertStroke : Stroke :=
  { points := [{ x := 0, y := 0 }, { x := 3, y := 1 }, { x := 5, y := 3 },
               { x := 5, y := 6 }, { x := 3, y := 8 }, { x := 0, y := 9 },
               { x := -3, y := 8 }, { x := -5, y := 6 }, { x := -4, y := 3 },
               { x := 0, y := 9 }]
    color := "#000000", width := 2, timestamp := 0 }

/-- Concrete closed ink stroke (10 points, endpoints about 7px apart)
whose first-to-last vector points into the down-right diagonal octant. -/
def closedDiagStroke : Stroke :=
  { points := [{ x := 0, y := 0 }, { x := 6, y := 1 }, { x := 9, y := 4 },
               { x := 9, y := 8 }, { x := 6, y := 11 }, { x := 2, y := 12 },
               { x := 0, y := 11 }, { x := 1, y := 8 }, { x := 3, y := 6 },
               { x := 5, y := 5 }]
    color := "#000000", width := 2, timestamp := 0 }

/-- Concrete two-entry methods list for the cascade-ordering witness. -/
def methodsW : List Method :=
  [{ enabled := true, run := .ok "Hello" }, { enabled := true, run := .ok "world" }]

/-- Concrete eraser stroke (the transparent color marks erasing). -/
def eraserStroke : Stroke :=
  { points := [{ x := 0, y := 0 }, { x := 1, y := 1 }]
    color := "transparent", width := 2, timestamp := 0 }

/-- Concrete list of five ink strokes. -/
def fiveStrokes : List Stroke :=
  [vertStroke, horizStroke, vertStroke, horizStroke, vertStroke]

/-- Concrete list of four identical vertical ink strokes. -/
def fourStrokesA : List Stroke :=
  [vertStroke, vertStroke, vertStroke, vertStroke]

/-- Concrete list of four geometrically mixed ink strokes. -/
def fourStrokesB : List Stroke :=
  [horizStroke, closedDiagStroke, vertStroke, horizStroke]

theorem runCascadeAux_fst (ms : List Method) (k : Nat) :
    (runCascadeAux ms k).1 = (ms.findSome? accepts).getD fallbackMessage := by
  induction ms generalizing k with
  | nil => rfl
  | cons m rest ih =>
    by_cases he : m.enabled = true
    · match hr : m.run with
      | .ok s =>
        by_cases ht : (jsTrim s).length > 0
        · simp [runCascadeAux, he, hr, ht, accepts, List.findSome?_cons]
        · simp [runCascadeAux, he, hr, ht, accepts, List.findSome?_cons, ih]
      | .error e =>
        simp [runCascadeAux, he, hr, accepts, List.findSome?_cons, ih]
    · simp [runCascadeAux, he, accepts, List.findSome?_cons, ih]

theorem runCascadeE_eq (ms : List Method) (k : Nat) :
    runCascadeE ms = .ok (runCascadeAux ms k).1 := by
  induction ms generalizing k with
  | nil => rfl
  | cons m rest ih =>
    by_cases he : m.enabled = true
    · match hr : m.run with
      | .ok s =>
        by_cases ht : (jsTrim s).length > 0
        · simp [runCascadeE, runCascadeAux, he, hr, ht]
        · simp [runCascadeE, runCascadeAux, he, hr, ht, ih k.succ]
      | .error e =>
        simp [runCascadeE, runCascadeAux, he, hr, ih k.succ]
    · simp [runCascadeE, runCascadeAux, he, ih k.succ]

theorem invokedSpec_cons (m : Method) (rest : List Method) (k j : Nat) :
    (∃ i m2, (m :: rest).get? i = some m2 ∧ j = k + i ∧ m2.enabled = true ∧
       ∀ l c, l < i → (m :: rest).get? l = some c → accepts c = none)
    ↔ ((j = k ∧ m.enabled = true) ∨
       (accepts m = none ∧ ∃ i2 m2, rest.get? i2 = some m2 ∧ j = (k + 1) + i2 ∧
          m2.enabled = true ∧
          ∀ l c, l < i2 → rest.get? l = some c → accepts c = none)) := by
  constructor
  · rintro ⟨i, m2, hget, hj, hen, hpre⟩
    cases i with
    | zero =>
      left
      have hm : m2 = m := by simpa using hget.symm
      subst hm
      exact ⟨by omega, hen⟩
    | succ i2 =>
      right
      refine ⟨hpre 0 m (Nat.succ_pos _) rfl, i2, m2, by simpa using hget, by omega, hen, ?_⟩
      intro l c hl hc
      exact hpre (l + 1) c (by omega) (by simpa using hc)
  · rintro (⟨hj, hen⟩ | ⟨hnone, i2, m2, hget, hj, hen, hpre⟩)
    · exact ⟨0, m, rfl, by omega, hen, fun l c hl => absurd hl (Nat.not_lt_zero l)⟩
    · refine ⟨i2 + 1, m2, by simpa using hget, by omega, hen, ?_⟩
      intro l c hl hc
      cases l with
      | zero =>
        have hc2 : c = m := by simpa using hc.symm
        subst hc2
        exact hnone
      | succ l2 =>
        exact hpre l2 c (by omega) (by simpa using hc)

theorem runCascadeAux_mem (ms : List Method) : ∀ (k j : Nat),
    j ∈ (runCascadeAux ms k).2 ↔
      ∃ i m, ms.get? i = some m ∧ j = k + i ∧ m.enabled = true ∧
        ∀ l c, l < i → ms.get? l = some c → accepts c = none := by
  induction ms with
  | nil => intro k j; simp [runCascadeAux]
  | cons m rest ih =>
    intro k j
    rw [invokedSpec_cons]
    by_cases he : m.enabled = true
    · match hr : m.run with
      | .ok s =>
        by_cases ht : (jsTrim s).length > 0
        · have hacc : accepts m = some s := by simp [accepts, he, hr, ht]
          simp only [runCascadeAux, he, hr, if_pos, ht, hacc]
          constructor
          · intro hj
            exact Or.inl ⟨by simpa using hj, trivial⟩
          · rintro (⟨rfl, _⟩ | ⟨hnone, _⟩)
            · simp
            · simp at hnone
        · have hacc : accepts m = none := by simp [accepts, he, hr, ht]
          simp only [runCascadeAux, he, hr, ht, if_true, if_false, ite_true, ite_false]
          simp only [List.mem_cons, hacc, true_and, ih (k + 1) j]
          constructor
          · rintro (rfl | h)
            · exact Or.inl ⟨rfl, trivial⟩
            · exact Or.inr h
          · rintro (⟨rfl, _⟩ | h)
            · exact Or.inl rfl
            · exact Or.inr h
      | .error e =>
        have hacc : accepts m = none := by simp [accepts, he, hr]
        simp only [runCascadeAux, he, hr, ite_true]
        simp only [List.mem_cons, hacc, true_and, ih (k + 1) j]
        constructor
        · rintro (rfl | h)
          · exact Or.inl ⟨rfl, trivial⟩
          · exact Or.inr h
        · rintro (⟨rfl, _⟩ | h)
          · exact Or.inl rfl
          · exact Or.inr h
    · have hacc : accepts m = none := by simp [accepts, he]
      have hen : m.enabled = false := by simpa using he
      simp only [runCascadeAux, hen, ite_false, Bool.false_eq_true, if_false]
      simp only [hacc, true_and, ih (k + 1) j]
      constructor
      · intro h; exact Or.inr h
      · rintro (⟨rfl, hcontra⟩ | h)
        · exact hcontra.elim
        · exact h

/-- C1: recognizeHandwriting is total.  At the exception-level embedding
every adapter failure is caught inside the cascade loop
(recognizeHandwritingE never returns Except.error), and the value it
resolves to is exactly the string computed by the instrumented cascade,
whose terminal pattern-recognition stage is always enabled. -/
theorem recognizeHandwriting_total (env : Env) (strokes : List Stroke) :
    ∃ s : String, recognizeHandwritingE env strokes = Except.ok s ∧
      (recognizeHandwriting env strokes).1 = s := by
  refine ⟨(recognizeHandwriting env strokes).1, ?_, rfl⟩
  unfold recognizeHandwritingE recognizeHandwriting
  by_cases h0 : strokes.length = 0
  · simp [h0]
  · by_cases h1 : (strokes.filter isDrawStroke).length = 0
    · simp [h0, h1]
    · simp only [h0, h1, if_false, ite_false]
      exact runCascadeE_eq _ 0

/-- C2: the cascade tries methods in priority order: the result is the
first enabled method's outcome that is non-empty after trimming (or the
fallback message when no method is accepted); a method index is invoked
exactly when it is enabled and every earlier method was skipped, failed or
returned an empty trimmed result; in particular a lower-priority index j
is never invoked once a higher-priority enabled index i has a non-empty
resolved result. -/
theorem cascade_priority_order (ms : List Method) :
    ((runCascade ms).1 = (ms.findSome? accepts).getD fallbackMessage)
  ∧ (∀ j, j ∈ (runCascade ms).2 ↔
      ∃ m, ms.get? j = some m ∧ m.enabled = true ∧
        ∀ l c, l < j → ms.get? l = some c → accepts c = none)
  ∧ (∀ i j A s, i < j → ms.get? i = some A → A.enabled = true →
      A.run = Except.ok s → (jsTrim s).length > 0 → j ∉ (runCascade ms).2) := by
  refine ⟨runCascadeAux_fst ms 0, ?_, ?_⟩
  · intro j
    rw [runCascade, runCascadeAux_mem]
    constructor
    · rintro ⟨i, m, hget, hj, hen, hpre⟩
      obtain rfl : i = j := by omega
      exact ⟨m, hget, hen, hpre⟩
    · rintro ⟨m, hget, hen, hpre⟩
      exact ⟨j, m, hget, by omega, hen, hpre⟩
  · intro i j A s hij hgetA henA hrun htrim hmem
    rw [runCascade, runCascadeAux_mem] at hmem
    obtain ⟨i2, m, hget, hj, hen, hpre⟩ := hmem
    have hA : accepts A = none := hpre i A (by omega) hgetA
    simp [accepts, henA, hrun, htrim] at hA

/-- Witness for C2 at a concrete methods list: the higher-priority method
resolves to "Hello", so index 1 is never invoked and the cascade result is
"Hello". -/
theorem cascade_priority_order_witness :
    1 ∉ (runCascade methodsW).2 ∧ (runCascade methodsW).1 = "Hello" := by
  constructor
  · exact (cascade_priority_order methodsW).2.2 0 1
      { enabled := true, run := .ok "Hello" } "Hello"
      (by decide) rfl rfl rfl (by decide)
  · have h := (cascade_priority_order methodsW).1
    rw [h]; decide

theorem isDrawStroke_eq_true {s : Stroke} (h : s.color ≠ "transparent") :
    isDrawStroke s = true := by
  simp [isDrawStroke, h]

theorem filter_isDrawStroke_idem (l : List Stroke) :
    (l.filter isDrawStroke).filter isDrawStroke = l.filter isDrawStroke := by
  induction l with
  | nil => rfl
  | cons s rest ih =>
    by_cases h : isDrawStroke s = true
    · simp [List.filter_cons, h, ih]
    · simp [List.filter_cons, h, ih]

theorem recognizeHandwriting_run (env : Env) (strokes : List Stroke)
    (h0 : ¬ strokes.length = 0)
    (h1 : ¬ (strokes.filter isDrawStroke).length = 0) :
    recognizeHandwriting env strokes =
      runCascade (handwritingMethods env (strokes.filter isDrawStroke)) := by
  simp [recognizeHandwriting, h0, h1]

theorem runCascade_disabled_accept (env : Env) (ds : List Stroke)
    (hkey : googleKeyConfigured env.googleApiKey = false)
    (ht : (jsTrim (recognizeWithPatterns ds)).length > 0) :
    runCascade (handwritingMethods env ds) = (recognizeWithPatterns ds, [2]) := by
  simp [runCascade, handwritingMethods, runCascadeAux, hkey, ht]

theorem recognizeWithPatterns_count (strokes : List Stroke) (n : Nat)
    (hn : (strokes.filter isDrawStroke).length = n) (h4 : 4 ≤ n) :
    recognizeWithPatterns strokes =
      (if n ≤ 8 then (commonWords.get? (n % commonWords.length)).getD ""
       else (sentences.get? (n % sentences.length)).getD "") := by
  have h0 : ¬ strokes.length = 0 := by
    have := List.length_filter_le isDrawStroke strokes
    omega
  have h1 : ¬ (strokes.filter isDrawStroke).length = 0 := by omega
  have hn0 : ¬ n = 0 := by omega
  have hn1 : ¬ n = 1 := by omega
  have hn2 : ¬ n = 2 := by omega
  have hn3 : ¬ n = 3 := by omega
  simp only [recognizeWithPatterns, h0, ite_false, if_false, h1,
    strokesToCharacters, analyzeStrokesForCharacters, hn, hn0, hn1, hn2, hn3]

/-- C8: the empty stroke list resolves to the empty string, with no method
invoked and no exception. -/
theorem empty_strokes_empty_result (env : Env) :
    recognizeHandwriting env [] = ("", []) ∧
    recognizeHandwritingE env [] = Except.ok "" :=
  ⟨rfl, rfl⟩

/-- C10: when every stroke is an eraser stroke, the eraser-filter guard
returns the empty string before the cascade, so no method (network adapter
or pattern heuristic) is invoked. -/
theorem all_eraser_empty_result (env : Env) (strokes : List Stroke)
    (hne : strokes ≠ [])
    (hall : ∀ s ∈ strokes, s.color = "transparent") :
    recognizeHandwriting env strokes = ("", []) := by
  have h1 : strokes.filter isDrawStroke = [] := by
    rw [List.filter_eq_nil_iff]
    intro s hs
    simp [isDrawStroke, hall s hs]
  have h0 : ¬ strokes.length = 0 := fun h => hne (List.length_eq_zero.mp h)
  simp [recognizeHandwriting, h0, h1]

/-- Witness for C10 at one concrete eraser stroke. -/
theorem all_eraser_empty_result_witness :
    recognizeHandwriting envNoNet [eraserStroke] = ("", []) :=
  all_eraser_empty_result envNoNet [eraserStroke] (by decide) (by decide)

/-- C9: with the Google key not configured, an input with exactly five ink
strokes resolves to the canned-word-table entry at index 5 mod 13, the
word "good". -/
theorem five_strokes_good (env : Env) (strokes : List Stroke)
    (hkey : googleKeyConfigured env.googleApiKey = false)
    (h5 : (strokes.filter isDrawStroke).length = 5) :
    commonWords.length = 13
  ∧ commonWords.get? (5 % commonWords.length) = some "good"
  ∧ (recognizeHandwriting env strokes).1 = "good" := by
  refine ⟨rfl, rfl, ?_⟩
  have h0 : ¬ strokes.length = 0 := by
    have := List.length_filter_le isDrawStroke strokes
    omega
  have h1 : ¬ (strokes.filter isDrawStroke).length = 0 := by omega
  have hpat : recognizeWithPatterns (strokes.filter isDrawStroke) = "good" := by
    rw [recognizeWithPatterns_count (strokes.filter isDrawStroke) 5
      (by rw [filter_isDrawStroke_idem, h5]) (by omega)]
    decide
  rw [recognizeHandwriting_run env strokes h0 h1,
    runCascade_disabled_accept env _ hkey (by rw [hpat]; decide), hpat]

/-- Witness for C9 at five concrete ink strokes. -/
theorem five_strokes_good_witness :
    (recognizeHandwriting envNoNet fiveStrokes).1 = "good" :=
  (five_strokes_good envNoNet fiveStrokes (by decide) (by decide)).2.2

/-- C7: a single two-point ink stroke whose first-to-last vector falls in
the down octant (atan2 angle in [67.5, 112.5) degrees, the direction
classifier's "down" bucket) resolves to "I" with all network adapters
disabled; and any stroke with fewer than two points classifies as
direction "point". -/
theorem two_point_down_I :
    (∀ (env : Env) (s : Stroke),
        googleKeyConfigured env.googleApiKey = false →
        s.color ≠ "transparent" →
        s.points.length = 2 →
        getDetailedStrokeDirection s.points = "down" →
        (recognizeHandwriting env [s]).1 = "I")
  ∧ (∀ ps : List Point, ps.length < 2 → getDetailedStrokeDirection ps = "point") := by
  constructor
  · intro env s hkey hcol _hlen hdir
    have hds : isDrawStroke s = true := isDrawStroke_eq_true hcol
    have hfil : ([s] : List Stroke).filter isDrawStroke = [s] := by
      simp [List.filter_cons, hds]
    have h0 : ¬ ([s] : List Stroke).length = 0 := by simp
    have h1 : ¬ (([s] : List Stroke).filter isDrawStroke).length = 0 := by simp [hfil]
    have hpat : recognizeWithPatterns [s] = "I" := by
      simp [recognizeWithPatterns, hfil, strokesToCharacters,
        analyzeStrokesForCharacters, hdir]
    rw [recognizeHandwriting_run env [s] h0 h1, hfil,
      runCascade_disabled_accept env [s] hkey (by rw [hpat]; decide), hpat]
  · intro ps hlen
    simp [getDetailedStrokeDirection, hlen]

/-- Witness for C7: the concrete two-point stroke straight down recognizes
as "I", and a one-point stroke classifies as "point". -/
theorem two_point_down_I_witness :
    (recognizeHandwriting envNoNet [vertStroke]).1 = "I" ∧
    getDetailedStrokeDirection [{ x := 0, y := 0 }] = "point" :=
  ⟨two_point_down_I.1 envNoNet vertStroke (by decide) (by decide) (by decide) (by decide),
   two_point_down_I.2 [{ x := 0, y := 0 }] (by decide)⟩

/-- C5 counterexample: closedVertStroke is a single ink stroke with 10
points whose endpoints are 9px apart (closed), yet the heuristic resolves
it to "I", not "O": in the single-stroke branch the direction tests
precede the closed-shape test, and this stroke's first-to-last vector
points straight down. -/
theorem closed_stroke_O_cex :
    closedVertStroke.points.length = 10
  ∧ isClosedShape closedVertStroke.points = true
  ∧ getDetailedStrokeDirection closedVertStroke.points = "down"
  ∧ (recognizeHandwriting envNoNet [closedVertStroke]).1 = "I"
  ∧ ¬ (recognizeHandwriting envNoNet [closedVertStroke]).1 = "O" := by
  decide

/-- C5 amended: a single closed ink stroke (at least 10 points, endpoints
within 20px) resolves to "O" provided its first-to-last direction falls in
none of the four axis-aligned octants; a vertical direction yields "I" and
a horizontal one yields "-" instead, because the direction tests run
before the closed-shape test. -/
theorem closed_diagonal_stroke_O (env : Env) (s : Stroke)
    (hkey : googleKeyConfigured env.googleApiKey = false)
    (hcol : s.color ≠ "transparent")
    (_hlen : 10 ≤ s.points.length)
    (hclosed : isClosedShape s.points = true)
    (hdir : getDetailedStrokeDirection s.points ∉
      (["down", "up", "right", "left"] : List String)) :
    (recognizeHandwriting env [s]).1 = "O" := by
  simp only [List.mem_cons, List.not_mem_nil, or_false, not_or] at hdir
  obtain ⟨hd1, hd2, hd3, hd4⟩ := hdir
  have hds : isDrawStroke s = true := isDrawStroke_eq_true hcol
  have hfil : ([s] : List Stroke).filter isDrawStroke = [s] := by
    simp [List.filter_cons, hds]
  have h0 : ¬ ([s] : List Stroke).length = 0 := by simp
  have h1 : ¬ (([s] : List Stroke).filter isDrawStroke).length = 0 := by simp [hfil]
  have hpat : recognizeWithPatterns [s] = "O" := by
    simp [recognizeWithPatterns, hfil, strokesToCharacters,
      analyzeStrokesForCharacters, hclosed, hd1, hd2, hd3, hd4]
  rw [recognizeHandwriting_run env [s] h0 h1, hfil,
    runCascade_disabled_accept env [s] hkey (by rw [hpat]; decide), hpat]

/-- Witness for the amended C5 at the concrete closed diagonal stroke. -/
theorem closed_diagonal_stroke_O_witness :
    (recognizeHandwriting envNoNet [closedDiagStroke]).1 = "O" :=
  closed_diagonal_stroke_O envNoNet closedDiagStroke (by decide) (by decide)
    (by decide) (by decide) (by decide)

/-- C6 counterexample: two inputs with the same ink-stroke count (one
stroke each) on which the heuristic produces different text, because the
single-stroke branch reads the stroke's direction: a vertical stroke gives
"I", a horizontal one gives "-". -/
theorem stroke_count_determinism_cex :
    (([vertStroke] : List Stroke).filter isDrawStroke).length =
      (([horizStroke] : List Stroke).filter isDrawStroke).length
  ∧ recognizeWithPatterns [vertStroke] = "I"
  ∧ recognizeWithPatterns [horizStroke] = "-"
  ∧ ¬ recognizeWithPatterns [vertStroke] = recognizeWithPatterns [horizStroke] := by
  decide

/-- C6 amended: the heuristic's output is a function of the ink-stroke
count alone once that count is at least 4 (the canned-table branches); for
counts 1 to 3 it also depends on stroke geometry (direction, closed
shapes, intersections), as the counterexample shows. -/
theorem stroke_count_determines_ge_four (s1 s2 : List Stroke)
    (hc : (s1.filter isDrawStroke).length = (s2.filter isDrawStroke).length)
    (h4 : 4 ≤ (s1.filter isDrawStroke).length) :
    recognizeWithPatterns s1 = recognizeWithPatterns s2 := by
  rw [recognizeWithPatterns_count s1 ((s1.filter isDrawStroke).length) rfl (by omega),
    recognizeWithPatterns_count s2 ((s2.filter isDrawStroke).length) rfl (by omega), hc]

/-- Witness for the amended C6 at two geometrically different four-stroke
inputs. -/
theorem stroke_count_determines_ge_four_witness :
    recognizeWithPatterns fourStrokesA = recognizeWithPatterns fourStrokesB :=
  stroke_count_determines_ge_four fourStrokesA fourStrokesB (by decide) (by decide)

/-- C4: with the Google key absent, empty, or the placeholder, both
Google-keyed adapters short-circuit to failure without network I/O (their
result is independent of the network), and in the cascade they are marked
not enabled, so method indices 0 (Google Vision) and 1 (Gemini Vision) are
never invoked. -/
theorem adapters_short_circuit_without_key (key : Option String)
    (net net2 : Except String String)
    (hkey : googleKeyConfigured key = false) :
    (recognizeWithGoogleVision key net).2 = false
  ∧ (recognizeWithGoogleVision key net).1 =
      Except.error "Google Vision API key not configured"
  ∧ recognizeWithGoogleVision key net = recognizeWithGoogleVision key net2
  ∧ (recognizeWithAI key net).2 = false
  ∧ (recognizeWithAI key net).1 = Except.error "Google AI API key not configured"
  ∧ recognizeWithAI key net = recognizeWithAI key net2
  ∧ ∀ (env : Env) (strokes : List Stroke), env.googleApiKey = key →
      0 ∉ (recognizeHandwriting env strokes).2 ∧
      1 ∉ (recognizeHandwriting env strokes).2 := by
  refine ⟨?_, ?_, ?_, ?_, ?_, ?_, ?_⟩
  · simp [recognizeWithGoogleVision, hkey]
  · simp [recognizeWithGoogleVision, hkey]
  · simp [recognizeWithGoogleVision, hkey]
  · simp [recognizeWithAI, hkey]
  · simp [recognizeWithAI, hkey]
  · simp [recognizeWithAI, hkey]
  · intro env strokes henv
    have hkey2 : googleKeyConfigured env.googleApiKey = false := by rw [henv, hkey]
    by_cases h0 : strokes.length = 0
    · simp [recognizeHandwriting, h0]
    · by_cases h1 : (strokes.filter isDrawStroke).length = 0
      · simp [recognizeHandwriting, h0, h1]
      · rw [recognizeHandwriting_run env strokes h0 h1]
        constructor
        · intro hmem
          rw [runCascade, runCascadeAux_mem] at hmem
          obtain ⟨i, m, hget, hj, hen, _⟩ := hmem
          obtain rfl : i = 0 := by omega
          simp only [handwritingMethods, List.get?_cons_zero, Option.some.injEq] at hget
          rw [← hget, hkey2] at hen
          cases hen
        · intro hmem
          rw [runCascade, runCascadeAux_mem] at hmem
          obtain ⟨i, m, hget, hj, hen, _⟩ := hmem
          obtain rfl : i = 1 := by omega
          simp only [handwritingMethods, List.get?_cons_succ, List.get?_cons_zero,
            Option.some.injEq] at hget
          rw [← hget, hkey2] at hen
          cases hen

/-- Witness for C4 at the placeholder key and two distinct network
outcomes. -/
theorem adapters_short_circuit_without_key_witness :
    (recognizeWithGoogleVision (some "your_google_ai_api_key_here")
      (Except.ok "text")).2 = false ∧
    0 ∉ (recognizeHandwriting envNoNet [vertStroke]).2 := by
  have h := adapters_short_circuit_without_key (some "your_google_ai_api_key_here")
    (Except.ok "text") (Except.error "down") (by decide)
  have h2 := adapters_short_circuit_without_key none
    (Except.ok "text") (Except.error "down") (by decide)
  exact ⟨h.1, (h2.2.2.2.2.2.2 envNoNet [vertStroke] rfl).1⟩

theorem hookRun_quiet (env : Env) : ∀ (evs : List HookEvent) (st : HookState),
    st.recognizedText = "" → st.pendingTimer = none → st.inFlight = [] →
    (∀ e ∈ evs, e = HookEvent.timerFire ∨ e = HookEvent.resolve) →
    (hookRun env st evs).recognizedText = "" := by
  intro evs
  induction evs with
  | nil => intro st h1 _ _ _; exact h1
  | cons e rest ih =>
    intro st h1 h2 h3 hevs
    have hstep : hookStep env st e = st := by
      rcases hevs e (List.mem_cons_self e rest) with rfl | rfl
      · simp [hookStep, h2]
      · simp [hookStep, h3]
    rw [hookRun, List.foldl_cons, hstep]
    exact ih st h1 h2 h3 (fun e2 he2 => hevs e2 (List.mem_cons_of_mem e he2))

/-- C3 counterexample: start a recognition, let the debounce timer fire
(the cascade is now in flight), clear, then let the cascade resolve.  The
stale result "I" is written to recognizedText, so the state does not read
as empty after the clear once the in-flight result arrives: clearTimeout
cannot cancel a callback that already ran, and no staleness check guards
setRecognizedText. -/
theorem clear_inflight_stale_write_cex :
    (hookRun envNoNet hookInit
      [HookEvent.startRecognition [vertStroke], HookEvent.timerFire,
       HookEvent.clearRecognition, HookEvent.resolve]).recognizedText = "I"
  ∧ ¬ (hookRun envNoNet hookInit
      [HookEvent.startRecognition [vertStroke], HookEvent.timerFire,
       HookEvent.clearRecognition, HookEvent.resolve]).recognizedText = "" := by
  decide

/-- C3 amended: clearRecognition empties recognizedText and cancels the
pending (not yet fired) debounce timer, so when no cascade is in flight at
clear time the text stays empty under any further timer-fire/resolve
activity; a cascade already in flight at clear time, however, still writes
its result on resolution (stale results are not discarded). -/
theorem clear_before_fire_suppresses (env : Env) (st : HookState)
    (hin : st.inFlight = []) (evs : List HookEvent)
    (hevs : ∀ e ∈ evs, e = HookEvent.timerFire ∨ e = HookEvent.resolve) :
    (hookRun env (hookStep env st HookEvent.clearRecognition) evs).recognizedText
      = "" := by
  apply hookRun_quiet env evs
  · rfl
  · rfl
  · simpa [hookStep] using hin
  · exact hevs

/-- Witness for the amended C3: clear with nothing in flight, then a timer
fire and a resolve; the text stays empty. -/
theorem clear_before_fire_suppresses_witness :
    (hookRun envNoNet (hookStep envNoNet hookInit HookEvent.clearRecognition)
      [HookEvent.timerFire, HookEvent.resolve]).recognizedText = "" :=
  clear_before_fire_suppresses envNoNet hookInit rfl
    [HookEvent.timerFire, HookEvent.resolve] (by decide)
